import Mathlib

/-!
Verification of the `countriesandcapitals` quiz application
(`src/app/page.tsx`).

The page is a single React component.  Its logic is embedded here as pure
Lean functions over an explicit session-state record:

* JavaScript strings are modelled as `List Char` (Lean `Char` is a Unicode
  scalar value, matching a JS code point for all characters that occur in
  the data and in the claims);
* the component's `useState` fields form the `GameState` structure, and
  each event handler (`handleSubmit`, `handleGeoChoice`, `handleAdvance`,
  the restart button) becomes a state-transition function;
* calls to `Math.random()` are modelled by explicit oracle parameters: a
  `Nat → Nat` function supplying the Fisher–Yates index draws (taken
  modulo the allowed range, as the source's `Math.floor(Math.random()*(i+1))`
  always lands in `[0, i]`), and a `Nat` whose parity selects the geography
  question template (`Math.floor(Math.random()*2)`);
* the external `world-countries-capitals` dataset is an explicit input
  list of `CountryDetail` values, mirroring §4.1 of the design document
  ("Input: external dataset of raw country entries").
-/

/-- Is `c` in the Unicode combining-diacritics block `U+0300`–`U+036F`?
Mirrors the source regex `/[̀-ͯ]/` in `normalizeAnswer`. -/
def isCombiningMark (c : Char) : Bool :=
  0x300 ≤ c.toNat && c.toNat ≤ 0x36f

/-- ASCII fragment of JavaScript `String.prototype.toLowerCase`.
Characters outside `A`–`Z` are returned unchanged; a non-ASCII uppercase
letter that JS would lower-case is removed by `normalizeAnswer`'s final
`[^a-z0-9]` filter in either treatment, so the fragment is faithful there. -/
def asciiToLower (c : Char) : Char :=
  if 'A' ≤ c ∧ c ≤ 'Z' then Char.ofNat (c.toNat + 32) else c

/-- ASCII fragment of JavaScript `String.prototype.toUpperCase`,
used by `titleize` and by the `charAt(0).toUpperCase()` hint fragments. -/
def asciiToUpper (c : Char) : Char :=
  if 'a' ≤ c ∧ c ≤ 'z' then Char.ofNat (c.toNat - 32) else c

/-- The character class `[a-z0-9]` kept by `normalizeAnswer`'s final
`replace(/[^a-z0-9]/g, "")`. -/
def isAsciiLowerAlnum (c : Char) : Bool :=
  ('a' ≤ c && c ≤ 'z') || ('0' ≤ c && c ≤ '9')

/-- Canonical decomposition of one character, modelling
`String.prototype.normalize("NFD")` on the precomposed Latin letters of the
Latin-1 Supplement block (the characters relevant to the dataset and to the
spec's examples).  Every other character is returned unchanged. -/
def nfdChar (c : Char) : List Char :=
  match c with
  | 'à' => ['a', Char.ofNat 0x300]
  | 'á' => ['a', Char.ofNat 0x301]
  | 'â' => ['a', Char.ofNat 0x302]
  | 'ã' => ['a', Char.ofNat 0x303]
  | 'ä' => ['a', Char.ofNat 0x308]
  | 'å' => ['a', Char.ofNat 0x30a]
  | 'ç' => ['c', Char.ofNat 0x327]
  | 'è' => ['e', Char.ofNat 0x300]
  | 'é' => ['e', Char.ofNat 0x301]
  | 'ê' => ['e', Char.ofNat 0x302]
  | 'ë' => ['e', Char.ofNat 0x308]
  | 'ì' => ['i', Char.ofNat 0x300]
  | 'í' => ['i', Char.ofNat 0x301]
  | 'î' => ['i', Char.ofNat 0x302]
  | 'ï' => ['i', Char.ofNat 0x308]
  | 'ñ' => ['n', Char.ofNat 0x303]
  | 'ò' => ['o', Char.ofNat 0x300]
  | 'ó' => ['o', Char.ofNat 0x301]
  | 'ô' => ['o', Char.ofNat 0x302]
  | 'õ' => ['o', Char.ofNat 0x303]
  | 'ö' => ['o', Char.ofNat 0x308]
  | 'ù' => ['u', Char.ofNat 0x300]
  | 'ú' => ['u', Char.ofNat 0x301]
  | 'û' => ['u', Char.ofNat 0x302]
  | 'ü' => ['u', Char.ofNat 0x308]
  | 'ý' => ['y', Char.ofNat 0x301]
  | 'ÿ' => ['y', Char.ofNat 0x308]
  | 'À' => ['A', Char.ofNat 0x300]
  | 'Á' => ['A', Char.ofNat 0x301]
  | 'Â' => ['A', Char.ofNat 0x302]
  | 'Ã' => ['A', Char.ofNat 0x303]
  | 'Ä' => ['A', Char.ofNat 0x308]
  | 'Å' => ['A', Char.ofNat 0x30a]
  | 'Ç' => ['C', Char.ofNat 0x327]
  | 'È' => ['E', Char.ofNat 0x300]
  | 'É' => ['E', Char.ofNat 0x301]
  | 'Ê' => ['E', Char.ofNat 0x302]
  | 'Ë' => ['E', Char.ofNat 0x308]
  | 'Ì' => ['I', Char.ofNat 0x300]
  | 'Í' => ['I', Char.ofNat 0x301]
  | 'Î' => ['I', Char.ofNat 0x302]
  | 'Ï' => ['I', Char.ofNat 0x308]
  | 'Ñ' => ['N', Char.ofNat 0x303]
  | 'Ò' => ['O', Char.ofNat 0x300]
  | 'Ó' => ['O', Char.ofNat 0x301]
  | 'Ô' => ['O', Char.ofNat 0x302]
  | 'Õ' => ['O', Char.ofNat 0x303]
  | 'Ö' => ['O', Char.ofNat 0x308]
  | 'Ù' => ['U', Char.ofNat 0x300]
  | 'Ú' => ['U', Char.ofNat 0x301]
  | 'Û' => ['U', Char.ofNat 0x302]
  | 'Ü' => ['U', Char.ofNat 0x308]
  | 'Ý' => ['Y', Char.ofNat 0x301]
  | _ => [c]

/-- `normalizeAnswer` from `page.tsx`:
`value.normalize("NFD").replace(/[̀-ͯ]/g, "").toLowerCase().replace(/[^a-z0-9]/g, "")`. -/
def normalizeAnswer (value : List Char) : List Char :=
  (((value.flatMap nfdChar).filter (fun c => !isCombiningMark c)).map
      asciiToLower).filter isAsciiLowerAlnum

/-- JavaScript `value.split(" ")` on the model strings.
`[]` splits to `[[]]`, matching `"".split(" ") = [""]`. -/
def jsSplitSpace : List Char → List (List Char)
  | [] => [[]]
  | c :: t =>
    if c = ' ' then [] :: jsSplitSpace t
    else
      match jsSplitSpace t with
      | h :: r => (c :: h) :: r
      | [] => [[c]]

/-- JavaScript `parts.join(" ")`. -/
def jsJoinSpace : List (List Char) → List Char
  | [] => []
  | [x] => x
  | x :: xs => x ++ ' ' :: jsJoinSpace xs

/-- `titleize` from `page.tsx`: split on spaces; a word of more than three
characters gets its first character upper-cased (rest untouched), a word of
at most three characters is upper-cased entirely; re-join with spaces. -/
def titleize (value : List Char) : List Char :=
  jsJoinSpace ((jsSplitSpace value).map (fun part =>
    if 3 < part.length then
      match part with
      | c :: rest => asciiToUpper c :: rest
      | [] => []
    else part.map asciiToUpper))

/-- Decimal digit test, `[0-9]`. -/
def isDecDigit (c : Char) : Bool :=
  '0' ≤ c && c ≤ '9'

/-- Numeric value of a list of decimal digits. -/
def decDigitsVal (l : List Char) : Nat :=
  l.foldl (fun a c => 10 * a + (c.toNat - '0'.toNat)) 0

/-- JavaScript `parseInt(s, 10)` restricted to the shapes that occur in the
dataset's `iso.numeric` field: a string with a (possibly zero-padded)
leading run of decimal digits parses to that run's value, anything else is
`NaN`, modelled as `none`. -/
def jsParseIntDec (s : List Char) : Option Nat :=
  let ds := s.takeWhile isDecDigit
  if ds = [] then none else some (decDigitsVal ds)

/-- Decimal rendering of a natural number, modelling JavaScript
`String(n)` for a non-negative integer. -/
def natToDec (n : Nat) : List Char :=
  Nat.toDigits 10 n

/-- `String(parseInt(numeric, 10))` from `buildCountries`: the record id.
A non-numeric string yields the literal `"NaN"`. -/
def isoId (s : List Char) : List Char :=
  match jsParseIntDec s with
  | some n => natToDec n
  | none => ("NaN").data

/-- Raw entry of the external `world-countries-capitals` dataset, as typed
in `page.tsx` (`CountryDetail`).  The nested `iso.numeric` field is
flattened to `iso_numeric`; `none` models a missing field (the source reads
it through optional chaining `detail?.iso?.numeric`). -/
structure CountryDetail where
  country : List Char
  capital : List Char
  continent : List Char
  iso_numeric : Option (List Char)
  famous_for : Option (List Char)
  is_landlocked : Option Bool
  drive_direction : Option (List Char)
deriving DecidableEq, Repr

/-- Drive side, the two values of the source's `"left" | "right"` union. -/
inductive Drive where
  | left
  | right
deriving DecidableEq, Repr

/-- `Country` from `page.tsx`: the processed record the game plays on. -/
structure Country where
  id : List Char
  name : List Char
  capital : List Char
  continent : List Char
  continentCode : List Char
  isLandlocked : Bool
  driveDirection : Drive
  famousFor : Option (List Char)
deriving DecidableEq, Repr

/-- The `CONTINENT_NAMES` lookup table with its `?? "Unknown"` default. -/
def continentName (code : List Char) : List Char :=
  if code = ("af").data then ("Africa").data
  else if code = ("as").data then ("Asia").data
  else if code = ("eu").data then ("Europe").data
  else if code = ("na").data then ("North America").data
  else if code = ("sa").data then ("South America").data
  else if code = ("oc").data then ("Oceania").data
  else if code = ("an").data then ("Antarctica").data
  else ("Unknown").data

/-- The truthiness test `!detail?.iso?.numeric` (negated): a present,
non-empty `iso.numeric` string.  The empty string is falsy in JS, so it
counts as missing. -/
def hasIso (detail : CountryDetail) : Bool :=
  match detail.iso_numeric with
  | some s => !s.isEmpty
  | none => false

/-- The record constructed for one raw entry inside `buildCountries`'s
`.map`: id from `String(parseInt(iso.numeric, 10))`, title-cased names,
continent display name, `Boolean(is_landlocked)`, and drive side coerced to
`"right"` unless the raw field is exactly `"left"`. -/
def mkCountry (detail : CountryDetail) : Country :=
  { id := isoId (detail.iso_numeric.getD [])
    name := titleize detail.country
    capital := titleize detail.capital
    continent := continentName detail.continent
    continentCode := detail.continent
    isLandlocked := detail.is_landlocked.getD false
    driveDirection :=
      if detail.drive_direction = some (("left").data) then Drive.left
      else Drive.right
    famousFor := detail.famous_for }

/-- `buildCountries` from `page.tsx`, as a function of the injected raw
dataset.  The source's `.map(...)` produces `null` for entries without an
ISO numeric code and `.filter(Boolean)` removes those nulls, i.e. a
`filterMap`.  The `detailByIso` map the source also builds is written to
but never read, so it has no effect on the returned list and is omitted. -/
def buildCountries (detailList : List CountryDetail) : List Country :=
  detailList.filterMap (fun detail =>
    if hasIso detail then some (mkCountry detail) else none)

/-- One step of the Fisher–Yates loop body
`[result[i], result[j]] = [result[j], result[i]]`: exchange positions
`i` and `j`.  Out-of-range indices (never produced by `shuffle`) leave the
list unchanged. -/
def listSwap (l : List α) (i j : Nat) : List α :=
  match l[i]?, l[j]? with
  | some a, some b => (l.set i b).set j a
  | _, _ => l

/-- The Fisher–Yates loop of `shuffle`, counting `i` down to `1`; at index
`i` the random draw `Math.floor(Math.random() * (i + 1))` is modelled by
`rand i % (i + 1)`, which ranges over the same interval `[0, i]`. -/
def shuffleAux (rand : Nat → Nat) : Nat → List α → List α
  | 0, l => l
  | i + 1, l => shuffleAux rand i (listSwap l (i + 1) (rand (i + 1) % (i + 2)))

/-- `shuffle` from `page.tsx`: copy the array and run Fisher–Yates from
`result.length - 1` down to `1`. -/
def shuffle (rand : Nat → Nat) (l : List α) : List α :=
  shuffleAux rand (l.length - 1) l

/-- `TOTAL_LEVELS` from `page.tsx`. -/
def TOTAL_LEVELS : Nat := 100

/-- `buildPool` from `page.tsx`:
`shuffle(buildCountries()).slice(0, TOTAL_LEVELS)`. -/
def buildPool (detailList : List CountryDetail) (rand : Nat → Nat) : List Country :=
  (shuffle rand (buildCountries detailList)).take TOTAL_LEVELS

/-- `GeoQuestion` from `page.tsx`. -/
structure GeoQuestion where
  prompt : List Char
  answer : List Char
  options : List (List Char)
deriving DecidableEq, Repr

/-- `buildGeoQuestion` from `page.tsx`: two candidate boolean questions
(landlocked, drive side), one picked by `Math.floor(Math.random() * 2)`,
modelled by the parity of the oracle `t`; each question's two options are
the shuffled boolean domain. -/
def buildGeoQuestion (t : Nat) (r : Nat → Nat) (country : Country) : GeoQuestion :=
  let q0 : GeoQuestion :=
    { prompt := ("Is ").data ++ country.name ++ (" landlocked?").data
      answer := if country.isLandlocked then ("Yes").data else ("No").data
      options := shuffle r [("Yes").data, ("No").data] }
  let q1 : GeoQuestion :=
    { prompt := ("Which driving side is used in ").data ++ country.name ++ ("?").data
      answer := if country.driveDirection = Drive.left then ("Left").data else ("Right").data
      options := shuffle r [("Left").data, ("Right").data] }
  if t % 2 = 0 then q0 else q1

/-- The three sub-step values of the component's `step` state. -/
inductive Step where
  | country
  | capital
  | geo
deriving DecidableEq, Repr

/-- The component's `useState` fields gathered into one session state.
`geoQuestion` holds the `useMemo` value keyed on the current country: it is
recomputed exactly when the current country changes (advance / restart),
which is how the memo behaves, and `none` models the `null` question when
no current country exists. -/
structure GameState where
  countries : List Country
  levelIndex : Nat
  step : Step
  answer : List Char
  feedback : List Char
  attempts : Nat
  correctCount : Nat
  streak : Nat
  selectedOption : Option (List Char)
  showHint : Bool
  geoQuestion : Option GeoQuestion
deriving DecidableEq, Repr

/-- `totalLevels = Math.min(TOTAL_LEVELS, countries.length)`. -/
def totalLevels (st : GameState) : Nat :=
  min TOTAL_LEVELS st.countries.length

/-- `currentCountry`: `countries[levelIndex]` when in range, else undefined. -/
def currentCountry (st : GameState) : Option Country :=
  st.countries[st.levelIndex]?

/-- `finished = totalLevels > 0 && levelIndex >= totalLevels`. -/
def finished (st : GameState) : Bool :=
  decide (0 < totalLevels st) && decide (totalLevels st ≤ st.levelIndex)

/-- Feedback string of the empty-input rejection in `handleSubmit`. -/
def typeAnswerMsg : List Char := ("Type your answer to keep moving.").data

/-- Feedback string of a wrong country answer. -/
def notQuiteMsg : List Char := ("Not quite. Use the hints and try again.").data

/-- Feedback string of a wrong capital answer. -/
def closeMsg : List Char := ("Close! Think of the capital city.").data

/-- Feedback string of `handleCorrect` when the next step stays within the
level. -/
def onPointMsg : List Char := ("On point! Keep it going.").data

/-- Feedback string of `handleCorrect` when the level is complete. -/
def levelCompleteMsg : List Char := ("Level complete! Get ready for the next spotlight.").data

/-- Feedback string of a wrong geography choice. -/
def geoMissMsg : List Char := ("Geography check missed. Try another option.").data

/-- `handleCorrect` from `page.tsx`: bump `correctCount` and `streak`, set
the success feedback, and when a next step is given, move to it and clear
the input. -/
def handleCorrect (nextStep : Option Step) (st : GameState) : GameState :=
  let st1 := { st with
    correctCount := st.correctCount + 1
    streak := st.streak + 1
    feedback :=
      if nextStep = some Step.country then levelCompleteMsg else onPointMsg }
  match nextStep with
  | some s => { st1 with step := s, answer := [] }
  | none => st1

/-- `handleAdvance` from `page.tsx`: a no-op when finished, otherwise move
to the next level, reset the step and per-level transients.  The memoised
geography question is recomputed for the new current country (oracles
`t`, `r` supply its randomness). -/
def handleAdvance (t : Nat) (r : Nat → Nat) (st : GameState) : GameState :=
  if finished st then st
  else
    { st with
      levelIndex := st.levelIndex + 1
      step := Step.country
      answer := []
      selectedOption := none
      feedback := []
      geoQuestion := (st.countries[st.levelIndex + 1]?).map (buildGeoQuestion t r) }

/-- `handleSubmit` from `page.tsx` (the spec's `submitText`): no-op without
a current country; reject an input whose normalized form is empty; otherwise
count the attempt and grade against the country name (step `country`) or the
capital (step `capital`) by comparing normalized forms. -/
def handleSubmit (st : GameState) : GameState :=
  match currentCountry st with
  | none => st
  | some c =>
    let cleaned := normalizeAnswer st.answer
    if cleaned = [] then { st with feedback := typeAnswerMsg }
    else
      let st1 := { st with attempts := st.attempts + 1 }
      match st.step with
      | Step.country =>
        if normalizeAnswer c.name = cleaned then
          handleCorrect (some Step.capital) st1
        else { st1 with feedback := notQuiteMsg, streak := 0 }
      | Step.capital =>
        if normalizeAnswer c.capital = cleaned then
          handleCorrect (some Step.geo) st1
        else { st1 with feedback := closeMsg, streak := 0 }
      | Step.geo => st1

/-- `handleGeoChoice` from `page.tsx` (the spec's `submitChoice`): no-op
without a memoised question; record the selection, count the attempt, grade
the option against the question's answer by normalized comparison; a correct
choice completes the level and (after the UX delay, which is pure pacing)
advances. -/
def handleGeoChoice (t : Nat) (r : Nat → Nat) (option : List Char)
    (st : GameState) : GameState :=
  match st.geoQuestion with
  | none => st
  | some q =>
    let st1 := { st with selectedOption := some option, attempts := st.attempts + 1 }
    if normalizeAnswer option = normalizeAnswer q.answer then
      handleAdvance t r (handleCorrect (some Step.country) st1)
    else { st1 with feedback := geoMissMsg, streak := 0 }

/-- The component's initial state: a fresh pool, zeroed counters, step
`country`, and the memoised question for the first country. -/
def initState (detailList : List CountryDetail) (rand : Nat → Nat)
    (t : Nat) (r : Nat → Nat) : GameState :=
  let pool := buildPool detailList rand
  { countries := pool
    levelIndex := 0
    step := Step.country
    answer := []
    feedback := []
    attempts := 0
    correctCount := 0
    streak := 0
    selectedOption := none
    showHint := false
    geoQuestion := (pool[0]?).map (buildGeoQuestion t r) }

/-- The restart button's `onClick` from `page.tsx`: rebuild the pool and
reset every session field to its initial value (`showHint` is not touched
by the source handler). -/
def restart (detailList : List CountryDetail) (rand : Nat → Nat)
    (t : Nat) (r : Nat → Nat) (st : GameState) : GameState :=
  { initState detailList rand t r with showHint := st.showHint }

/-- JavaScript `hay.includes(needle)` via an explicit ASCII-level prefix
scan (`true` iff `needle` occurs contiguously in `hay`). -/
def isPrefixList : List Char → List Char → Bool
  | [], _ => true
  | _ :: _, [] => false
  | a :: as, b :: bs => (a == b) && isPrefixList as bs

/-- See `isPrefixList`; `jsIncludes hay needle` models `hay.includes(needle)`. -/
def jsIncludes (hay needle : List Char) : Bool :=
  match hay with
  | [] => needle.isEmpty
  | _ :: t => isPrefixList needle hay || jsIncludes t needle

/-- `name.charAt(0).toUpperCase()` — the empty string stays empty. -/
def charUpperFirst (s : List Char) : List Char :=
  match s with
  | [] => []
  | c :: _ => [asciiToUpper c]

/-- `hintLine` from `page.tsx`: the memoised hint text for the current
record, step and geography question. -/
def hintLine (st : GameState) : List Char :=
  match currentCountry st with
  | none => ("Loading hint...").data
  | some c =>
    if st.step = Step.country then
      ("Country starts with ").data ++ charUpperFirst c.name ++
        (" and sits in ").data ++ c.continent ++ (".").data
    else if st.step = Step.capital then
      ("Capital starts with ").data ++ charUpperFirst c.capital ++
        (" for ").data ++ c.name ++ (".").data
    else
      match st.geoQuestion with
      | some q =>
        if jsIncludes q.prompt (("landlocked").data) then
          if c.isLandlocked then ("No coastline.").data
          else ("Touches the sea.").data
        else if jsIncludes q.prompt (("driving side").data) then
          ("They drive on the ").data ++
            (if c.driveDirection = Drive.left then ("left").data else ("right").data) ++
            (" side.").data
        else ("Stay sharp.").data
      | none => ("Stay sharp.").data

/-- JavaScript whitespace characters relevant to "whitespace-only input"
(space, tab, line feed, carriage return, vertical tab, form feed). -/
def isJsSpace (c : Char) : Bool :=
  c = ' ' || c = '\t' || c = '\n' || c = '\r' ||
    c = Char.ofNat 11 || c = Char.ofNat 12

theorem normalizeAnswer_append (s t : List Char) :
    normalizeAnswer (s ++ t) = normalizeAnswer s ++ normalizeAnswer t := by
  simp [normalizeAnswer, List.flatMap_append, List.filter_append, List.map_append]

theorem normalizeAnswer_space_char (c : Char) (h : isJsSpace c = true) :
    normalizeAnswer [c] = [] := by
  simp only [isJsSpace, Bool.or_eq_true, decide_eq_true_iff] at h
  rcases h with ((((h | h) | h) | h) | h) | h <;> subst h <;> decide

theorem normalizeAnswer_whitespace (s : List Char) (h : s.all isJsSpace = true) :
    normalizeAnswer s = [] := by
  induction s with
  | nil => rfl
  | cons c t ih =>
    simp only [List.all_cons, Bool.and_eq_true] at h
    have hsplit : (c :: t) = [c] ++ t := rfl
    rw [hsplit, normalizeAnswer_append, normalizeAnswer_space_char c h.1, ih h.2]
    rfl

theorem cons_set_perm (a : α) :
    ∀ (xs : List α) (k : Nat) (b : α), xs[k]? = some b →
      List.Perm (b :: xs.set k a) (a :: xs) := by
  intro xs
  induction xs with
  | nil => intro k b h; simp at h
  | cons y ys ih =>
    intro k b h
    cases k with
    | zero =>
      simp only [List.getElem?_cons_zero, Option.some.injEq] at h
      subst h
      simpa using List.Perm.swap a y ys
    | succ k =>
      simp only [List.getElem?_cons_succ] at h
      have h1 : List.Perm (b :: y :: ys.set k a) (y :: b :: ys.set k a) :=
        List.Perm.swap y b _
      have h2 : List.Perm (y :: b :: ys.set k a) (y :: a :: ys) :=
        List.Perm.cons y (ih k b h)
      have h3 : List.Perm (y :: a :: ys) (a :: y :: ys) := List.Perm.swap a y ys
      simpa using (h1.trans h2).trans h3

theorem set_set_perm_of_getElem :
    ∀ (l : List α) (i j : Nat) (a b : α), l[i]? = some a → l[j]? = some b →
      List.Perm ((l.set i b).set j a) l := by
  intro l
  induction l with
  | nil => intro i j a b h _; simp at h
  | cons x xs ih =>
    intro i j a b ha hb
    cases i with
    | zero =>
      simp only [List.getElem?_cons_zero, Option.some.injEq] at ha
      subst ha
      cases j with
      | zero =>
        simp only [List.getElem?_cons_zero, Option.some.injEq] at hb
        subst hb
        simp
      | succ k =>
        simp only [List.getElem?_cons_succ] at hb
        simpa using cons_set_perm x xs k b hb
    | succ m =>
      simp only [List.getElem?_cons_succ] at ha
      cases j with
      | zero =>
        simp only [List.getElem?_cons_zero, Option.some.injEq] at hb
        subst hb
        simpa using cons_set_perm x xs m a ha
      | succ k =>
        simp only [List.getElem?_cons_succ] at hb
        simpa using List.Perm.cons x (ih m k a b ha hb)

theorem listSwap_perm (l : List α) (i j : Nat) :
    List.Perm (listSwap l i j) l := by
  unfold listSwap
  cases hi : l[i]? with
  | none =>
    cases hj : l[j]? <;> simp only [hi, hj] <;> exact List.Perm.refl l
  | some a =>
    cases hj : l[j]? with
    | none => simp only [hi, hj]; exact List.Perm.refl l
    | some b =>
      simp only [hi, hj]
      exact set_set_perm_of_getElem l i j a b hi hj

theorem shuffleAux_perm (rand : Nat → Nat) :
    ∀ (n : Nat) (l : List α), List.Perm (shuffleAux rand n l) l := by
  intro n
  induction n with
  | zero => intro l; exact List.Perm.refl l
  | succ m ih =>
    intro l
    exact (ih _).trans (listSwap_perm l (m + 1) (rand (m + 1) % (m + 2)))

theorem shuffle_perm (rand : Nat → Nat) (l : List α) :
    List.Perm (shuffle rand l) l :=
  shuffleAux_perm rand (l.length - 1) l

theorem buildCountries_eq_filter_map (ds : List CountryDetail) :
    buildCountries ds = (ds.filter hasIso).map mkCountry := by
  induction ds with
  | nil => rfl
  | cons d t ih =>
    simp only [buildCountries] at ih ⊢
    by_cases h : hasIso d = true <;>
      simp [List.filterMap_cons, List.filter_cons, h, ih]

theorem jsIncludes_nil (hay : List Char) : jsIncludes hay [] = true := by
  cases hay <;> simp [jsIncludes, isPrefixList]

theorem isPrefixList_self_append (n s : List Char) :
    isPrefixList n (n ++ s) = true := by
  induction n with
  | nil => rfl
  | cons c m ih => simp [isPrefixList, ih]

theorem jsIncludes_parts (p n s : List Char) :
    jsIncludes (p ++ (n ++ s)) n = true := by
  induction p with
  | nil =>
    cases n with
    | nil => simpa using jsIncludes_nil s
    | cons c m =>
      simp only [List.nil_append, List.cons_append, jsIncludes]
      have := isPrefixList_self_append (c :: m) s
      simp only [List.cons_append] at this
      simp [this]
  | cons c p' ih =>
    simp only [List.cons_append, jsIncludes]
    simp [ih]

/-- Concrete raw entry: France (ISO numeric 250). -/
def franceDetail : CountryDetail :=
  { country := ("france").data
    capital := ("paris").data
    continent := ("eu").data
    iso_numeric := some (("250").data)
    famous_for := none
    is_landlocked := some false
    drive_direction := some (("right").data) }

/-- Processed France record. -/
def france : Country := mkCountry franceDetail

/-- Session at the country step of a one-country pool (France), with the
input `"FRANCE"` typed. -/
def franceSt : GameState :=
  { countries := [france]
    levelIndex := 0
    step := Step.country
    answer := ("FRANCE").data
    feedback := []
    attempts := 3
    correctCount := 1
    streak := 1
    selectedOption := none
    showHint := false
    geoQuestion := some (buildGeoQuestion 0 (fun _ => 0) france) }

/-- C1: in state `Country` with a current country and an input of non-empty
normalized form, `handleSubmit` on a normalized match moves to the capital
step, bumps `correctCount` and `streak` by one and clears the input; on a
mismatch it stays at the country step, bumps `attempts` but not
`correctCount` and zeroes `streak`. -/
theorem handleSubmit_country_spec (st : GameState) (c : Country)
    (hc : currentCountry st = some c) (hstep : st.step = Step.country)
    (hne : normalizeAnswer st.answer ≠ []) :
    (normalizeAnswer st.answer = normalizeAnswer c.name →
      (handleSubmit st).step = Step.capital ∧
      (handleSubmit st).correctCount = st.correctCount + 1 ∧
      (handleSubmit st).streak = st.streak + 1 ∧
      (handleSubmit st).answer = []) ∧
    (normalizeAnswer st.answer ≠ normalizeAnswer c.name →
      (handleSubmit st).step = Step.country ∧
      (handleSubmit st).attempts = st.attempts + 1 ∧
      (handleSubmit st).correctCount = st.correctCount ∧
      (handleSubmit st).streak = 0) := by
  unfold handleSubmit
  simp only [hc]
  rw [if_neg hne]
  simp only [hstep]
  constructor
  · intro h
    rw [if_pos h.symm]
    simp [handleCorrect]
  · intro h
    rw [if_neg (fun hh => h hh.symm)]
    simp [hstep]

/-- Witness for `handleSubmit_country_spec`: the France session with the
matching input `"FRANCE"`. -/
theorem handleSubmit_country_spec_witness :
    (handleSubmit franceSt).step = Step.capital ∧
    (handleSubmit franceSt).correctCount = franceSt.correctCount + 1 ∧
    (handleSubmit franceSt).streak = franceSt.streak + 1 ∧
    (handleSubmit franceSt).answer = [] := by
  have h := handleSubmit_country_spec franceSt france (by decide) (by decide)
    (by decide)
  exact h.1 (by decide)

/-- C2: `normalizeAnswer` emits only lowercase ASCII alphanumerics; the
spec's diacritics example normalizes as promised; and in the country step
`handleSubmit` advances exactly when the normalized input equals the
normalized country name (answers are judged equal iff their normalized
forms are identical). -/
theorem normalizeAnswer_spec (s : List Char) (st : GameState) (c : Country)
    (hc : currentCountry st = some c) (hstep : st.step = Step.country)
    (hne : normalizeAnswer st.answer ≠ []) :
    (∀ ch ∈ normalizeAnswer s, ('a' ≤ ch ∧ ch ≤ 'z') ∨ ('0' ≤ ch ∧ ch ≤ '9')) ∧
    normalizeAnswer (("São Paulo").data) = ("saopaulo").data ∧
    normalizeAnswer (("sao paulo").data) = ("saopaulo").data ∧
    ((handleSubmit st).step = Step.capital ↔
      normalizeAnswer st.answer = normalizeAnswer c.name) := by
  refine ⟨?_, by decide, by decide, ?_⟩
  · intro ch hch
    have h2 := (List.mem_filter.mp hch).2
    simpa [isAsciiLowerAlnum, Bool.or_eq_true, Bool.and_eq_true,
      decide_eq_true_iff] using h2
  · unfold handleSubmit
    simp only [hc]
    rw [if_neg hne]
    simp only [hstep]
    by_cases h : normalizeAnswer c.name = normalizeAnswer st.answer
    · rw [if_pos h]
      simp [handleCorrect, h.symm]
    · rw [if_neg h]
      simp only [hstep]
      constructor
      · intro hfalse
        exact absurd hfalse (by simp)
      · intro hh
        exact absurd hh.symm h

/-- Witness for `normalizeAnswer_spec`: the spec's diacritics examples and
the France session with its matching input. -/
theorem normalizeAnswer_spec_witness :
    normalizeAnswer (("São Paulo").data) = ("saopaulo").data ∧
    normalizeAnswer (("sao paulo").data) = ("saopaulo").data ∧
    ((handleSubmit franceSt).step = Step.capital ↔
      normalizeAnswer franceSt.answer = normalizeAnswer france.name) := by
  have h := normalizeAnswer_spec (("Ivory-Coast").data) franceSt france
    (by decide) rfl (by decide)
  exact ⟨h.2.1, h.2.2.1, h.2.2.2⟩

/-- The France session with a punctuation-only input. -/
def dashSt : GameState := { franceSt with answer := ("-").data }

/-- Constant-zero randomness oracle (always draws index 0). -/
def constZero : Nat → Nat := fun _ => 0

/-- Raw entry with ISO numeric code `"004"`. -/
def dupEntryA : CountryDetail :=
  { country := ("afghanistan").data
    capital := ("kabul").data
    continent := ("as").data
    iso_numeric := some (("004").data)
    famous_for := none
    is_landlocked := some true
    drive_direction := some (("right").data) }

/-- Raw entry whose ISO numeric code `"4"` denotes the same number as
`dupEntryA`'s zero-padded `"004"`, so both produce id `"4"`. -/
def dupEntryB : CountryDetail :=
  { country := ("second afghanistan").data
    capital := ("kabul again").data
    continent := ("as").data
    iso_numeric := some (("4").data)
    famous_for := none
    is_landlocked := some true
    drive_direction := some (("right").data) }

/-- Raw entry with no ISO numeric code. -/
def noIsoEntry : CountryDetail :=
  { country := ("atlantis").data
    capital := ("poseidonia").data
    continent := ("eu").data
    iso_numeric := none
    famous_for := none
    is_landlocked := some false
    drive_direction := none }

/-- Counterexample to C3 as stated: the input `"-"` is neither empty nor
whitespace-only, yet `handleSubmit` rejects it without counting an attempt
(its normalized form is empty). -/
theorem handleSubmit_reject_cex :
    dashSt.answer ≠ [] ∧
    dashSt.answer.all isJsSpace = false ∧
    (handleSubmit dashSt).attempts = dashSt.attempts ∧
    (handleSubmit dashSt).feedback = typeAnswerMsg := by
  decide

/-- C3 amended: with a current country, `handleSubmit` rejects exactly the
inputs whose normalized form is empty — leaving every field but the
feedback untouched and counting no attempt — and counts every input of
non-empty normalized form as an attempt; every whitespace-only input
normalizes to empty, so the rejected class contains the claim's one. -/
theorem handleSubmit_reject_spec (st : GameState) (c : Country)
    (hc : currentCountry st = some c) :
    (normalizeAnswer st.answer = [] →
      handleSubmit st = { st with feedback := typeAnswerMsg }) ∧
    (normalizeAnswer st.answer ≠ [] →
      (handleSubmit st).attempts = st.attempts + 1) ∧
    (st.answer.all isJsSpace = true → normalizeAnswer st.answer = []) := by
  refine ⟨?_, ?_, fun h => normalizeAnswer_whitespace st.answer h⟩
  · intro h
    unfold handleSubmit
    simp only [hc]
    rw [if_pos h]
  · intro h
    unfold handleSubmit
    simp only [hc]
    rw [if_neg h]
    cases hst : st.step <;> simp only <;>
      try (split <;> simp [handleCorrect])

/-- Witness for `handleSubmit_reject_spec`: the empty-normal input `"-"`
is rejected, the non-empty input `"FRANCE"` is counted. -/
theorem handleSubmit_reject_spec_witness :
    handleSubmit dashSt = { dashSt with feedback := typeAnswerMsg } ∧
    (handleSubmit franceSt).attempts = franceSt.attempts + 1 := by
  have h1 := handleSubmit_reject_spec dashSt france (by decide)
  have h2 := handleSubmit_reject_spec franceSt france (by decide)
  exact ⟨h1.1 (by decide), h2.2.1 (by decide)⟩

/-- Counterexample to C4 as stated: two raw entries that both carry an ISO
numeric code denoting 4 (`"004"` and `"4"`) each survive `buildCountries`,
which therefore returns two records with the same id `"4"` — the
`detailByIso` map in the source is never read, so nothing deduplicates. -/
theorem buildCountries_dedup_cex :
    (∀ e ∈ [dupEntryA, dupEntryB], hasIso e = true) ∧
    (buildCountries [dupEntryA, dupEntryB]).map Country.id =
      [("4").data, ("4").data] ∧
    ¬ ((buildCountries [dupEntryA, dupEntryB]).map Country.id).Nodup := by
  decide

/-- C4 amended: `buildCountries` keeps exactly the raw entries carrying an
ISO numeric code, in order, mapping each to one record; it performs no
deduplication, so entries with equal ISO numeric values yield records with
equal ids. -/
theorem buildCountries_spec (ds : List CountryDetail) :
    buildCountries ds = (ds.filter hasIso).map mkCountry ∧
    (∀ r ∈ buildCountries ds, ∃ e ∈ ds, hasIso e = true ∧ r = mkCountry e) := by
  refine ⟨buildCountries_eq_filter_map ds, ?_⟩
  intro r hr
  rw [buildCountries_eq_filter_map] at hr
  rcases List.mem_map.mp hr with ⟨e, he, rfl⟩
  rcases List.mem_filter.mp he with ⟨he1, he2⟩
  exact ⟨e, he1, he2, rfl⟩

/-- Witness for `buildCountries_spec` on a two-entry dataset where one
entry lacks an ISO code. -/
theorem buildCountries_spec_witness :
    buildCountries [dupEntryA, noIsoEntry] =
      ([dupEntryA, noIsoEntry].filter hasIso).map mkCountry ∧
    (∃ e ∈ [dupEntryA, noIsoEntry], hasIso e = true ∧
      mkCountry dupEntryA = mkCountry e) := by
  have h := buildCountries_spec [dupEntryA, noIsoEntry]
  exact ⟨h.1, h.2 (mkCountry dupEntryA) (by decide)⟩

/-- Counterexample to C5 as stated: on the loaded dataset produced from
`dupEntryA` and `dupEntryB` (two records, duplicate id `"4"`), the freshly
built pool has the right length but contains two entries with the same id. -/
theorem buildPool_nodup_cex :
    (buildPool [dupEntryA, dupEntryB] constZero).length =
      min 100 (buildCountries [dupEntryA, dupEntryB]).length ∧
    ¬ ((buildPool [dupEntryA, dupEntryB] constZero).map Country.id).Nodup := by
  decide

/-- C5 amended: for every dataset and every randomness draw, the fresh pool
has length exactly `min 100 N` (`N` the loaded record count); and whenever
the loaded records have pairwise-distinct ids — which the loader does not
itself guarantee — the pool has no duplicate id, being a permutation
prefix. -/
theorem buildPool_spec (ds : List CountryDetail) (rand : Nat → Nat) :
    (buildPool ds rand).length = min TOTAL_LEVELS (buildCountries ds).length ∧
    (((buildCountries ds).map Country.id).Nodup →
      ((buildPool ds rand).map Country.id).Nodup) := by
  have hp := shuffle_perm rand (buildCountries ds)
  constructor
  · unfold buildPool
    rw [List.length_take, hp.length_eq]
  · intro h
    unfold buildPool
    rw [List.map_take]
    have hm : ((shuffle rand (buildCountries ds)).map Country.id).Nodup :=
      ((hp.map Country.id).nodup_iff).mpr h
    exact (List.take_sublist _ _).nodup hm

/-- Witness for `buildPool_spec` on a dataset whose single kept record has
a trivially duplicate-free id list. -/
theorem buildPool_spec_witness :
    (buildPool [dupEntryA, noIsoEntry] constZero).length =
      min TOTAL_LEVELS (buildCountries [dupEntryA, noIsoEntry]).length ∧
    ((buildPool [dupEntryA, noIsoEntry] constZero).map Country.id).Nodup := by
  have h := buildPool_spec [dupEntryA, noIsoEntry] constZero
  exact ⟨h.1, h.2 (by decide)⟩

/-- Raw entry: Singapore, a city-state whose capital equals its name. -/
def singaporeDetail : CountryDetail :=
  { country := ("singapore").data
    capital := ("singapore").data
    continent := ("as").data
    iso_numeric := some (("702").data)
    famous_for := none
    is_landlocked := some false
    drive_direction := some (("left").data) }

/-- Processed Singapore record. -/
def singapore : Country := mkCountry singaporeDetail

/-- Session on the geography step of a one-country pool (Singapore),
with the memoised landlocked-template question. -/
def singGeoSt : GameState :=
  { countries := [singapore]
    levelIndex := 0
    step := Step.geo
    answer := []
    feedback := []
    attempts := 2
    correctCount := 2
    streak := 2
    selectedOption := none
    showHint := false
    geoQuestion := some (buildGeoQuestion 0 constZero singapore) }

/-- The Singapore session on the capital step. -/
def singCapSt : GameState := { singGeoSt with step := Step.capital }

/-- C6: a wrong geography choice (normalized forms differ) zeroes the
streak, sets the miss feedback, and leaves the session on the geography
step with the very same memoised question; level index, correct count and
pool are untouched. -/
theorem handleGeoChoice_wrong_frame (t : Nat) (r : Nat → Nat)
    (choice : List Char) (st : GameState) (q : GeoQuestion)
    (hq : st.geoQuestion = some q) (hstep : st.step = Step.geo)
    (hw : normalizeAnswer choice ≠ normalizeAnswer q.answer) :
    (handleGeoChoice t r choice st).step = Step.geo ∧
    (handleGeoChoice t r choice st).geoQuestion = some q ∧
    (handleGeoChoice t r choice st).streak = 0 ∧
    (handleGeoChoice t r choice st).feedback = geoMissMsg ∧
    (handleGeoChoice t r choice st).levelIndex = st.levelIndex ∧
    (handleGeoChoice t r choice st).correctCount = st.correctCount ∧
    (handleGeoChoice t r choice st).countries = st.countries := by
  unfold handleGeoChoice
  simp only [hq]
  rw [if_neg hw]
  simp [hstep, hq]

/-- Witness for `handleGeoChoice_wrong_frame`: answering `"Yes"` to the
landlocked question about Singapore (whose correct answer is `"No"`). -/
theorem handleGeoChoice_wrong_frame_witness :
    (handleGeoChoice 0 constZero (("Yes").data) singGeoSt).step = Step.geo ∧
    (handleGeoChoice 0 constZero (("Yes").data) singGeoSt).geoQuestion =
      some (buildGeoQuestion 0 constZero singapore) ∧
    (handleGeoChoice 0 constZero (("Yes").data) singGeoSt).streak = 0 ∧
    (handleGeoChoice 0 constZero (("Yes").data) singGeoSt).feedback = geoMissMsg ∧
    (handleGeoChoice 0 constZero (("Yes").data) singGeoSt).levelIndex =
      singGeoSt.levelIndex ∧
    (handleGeoChoice 0 constZero (("Yes").data) singGeoSt).correctCount =
      singGeoSt.correctCount ∧
    (handleGeoChoice 0 constZero (("Yes").data) singGeoSt).countries =
      singGeoSt.countries :=
  handleGeoChoice_wrong_frame 0 constZero (("Yes").data) singGeoSt
    (buildGeoQuestion 0 constZero singapore) rfl rfl (by decide)

theorem jsIncludes_landlocked (name : List Char) :
    jsIncludes (("Is ").data ++ name ++ (" landlocked?").data)
      (("landlocked").data) = true := by
  have hdecomp : (" landlocked?").data =
      [' '] ++ ((("landlocked").data) ++ [('?' : Char)]) := by decide
  have h := jsIncludes_parts (("Is ").data ++ (name ++ [' ']))
    (("landlocked").data) ([('?' : Char)])
  simpa [hdecomp, List.append_assoc] using h

theorem jsIncludes_driving (name : List Char) :
    jsIncludes (("Which driving side is used in ").data ++ name ++ ("?").data)
      (("driving side").data) = true := by
  have hdecomp : ("Which driving side is used in ").data =
      ("Which ").data ++ ((("driving side").data) ++ (" is used in ").data) := by
    decide
  have h := jsIncludes_parts (("Which ").data) (("driving side").data)
    ((" is used in ").data ++ (name ++ ("?").data))
  simpa [hdecomp, List.append_assoc] using h

/-- Counterexample to C7 as stated: on the capital step for Singapore the
clue is "Capital starts with S for Singapore.", which contains the exact
answer ("Singapore", the capital) in full. -/
theorem hintLine_capital_cex :
    currentCountry singCapSt = some singapore ∧
    singCapSt.step = Step.capital ∧
    singapore.capital = ("Singapore").data ∧
    jsIncludes (hintLine singCapSt) singapore.capital = true := by
  decide

/-- C7 amended: the country-step clue contains the name's first letter
(upper-cased) and the continent; the capital-step clue contains the
capital's first letter but also the country's name in full — hence the
exact answer whenever the capital equals the name, as for Singapore — and
the geography-step clue never contains the current question's exact
answer. -/
theorem hintLine_spec (st : GameState) (c : Country) (t : Nat) (r : Nat → Nat)
    (hc : currentCountry st = some c) :
    (st.step = Step.country →
      jsIncludes (hintLine st) (charUpperFirst c.name) = true ∧
      jsIncludes (hintLine st) c.continent = true) ∧
    (st.step = Step.capital →
      jsIncludes (hintLine st) (charUpperFirst c.capital) = true ∧
      jsIncludes (hintLine st) c.name = true) ∧
    (st.step = Step.geo → st.geoQuestion = some (buildGeoQuestion t r c) →
      jsIncludes (hintLine st) (buildGeoQuestion t r c).answer = false) := by
  refine ⟨?_, ?_, ?_⟩
  · intro hs
    unfold hintLine
    simp only [hc, hs]
    simp only [if_true]
    constructor
    · have h := jsIncludes_parts (("Country starts with ").data)
        (charUpperFirst c.name)
        ((" and sits in ").data ++ (c.continent ++ (".").data))
      simpa [List.append_assoc] using h
    · have h := jsIncludes_parts
        (("Country starts with ").data ++ (charUpperFirst c.name ++ (" and sits in ").data))
        c.continent ((".").data)
      simpa [List.append_assoc] using h
  · intro hs
    unfold hintLine
    simp only [hc, hs]
    simp only [if_true]
    constructor
    · have h := jsIncludes_parts (("Capital starts with ").data)
        (charUpperFirst c.capital)
        ((" for ").data ++ (c.name ++ (".").data))
      simpa [List.append_assoc] using h
    · have h := jsIncludes_parts
        (("Capital starts with ").data ++ (charUpperFirst c.capital ++ (" for ").data))
        c.name ((".").data)
      simpa [List.append_assoc] using h
  · intro hs hq
    unfold hintLine
    simp only [hc, hs, hq]
    by_cases ht : t % 2 = 0
    · simp only [buildGeoQuestion, ht, if_pos, if_true, reduceIte]
      rw [jsIncludes_landlocked]
      cases hl : c.isLandlocked <;> simp [hl] <;> decide
    · simp only [buildGeoQuestion, ht, if_false, reduceIte]
      by_cases hll : jsIncludes
          ((("Which driving side is used in ").data ++ c.name) ++ ("?").data)
          (("landlocked").data) = true
      · rw [if_pos hll]
        cases hl : c.isLandlocked <;> cases hd : c.driveDirection <;>
          simp [hl, hd] <;> decide
      · rw [if_neg hll]
        rw [jsIncludes_driving]
        cases hd : c.driveDirection <;> simp [hd] <;> decide

/-- Witness for `hintLine_spec`: the Singapore sessions on the capital and
geography steps. -/
theorem hintLine_spec_witness :
    (jsIncludes (hintLine singCapSt) (charUpperFirst singapore.capital) = true ∧
      jsIncludes (hintLine singCapSt) singapore.name = true) ∧
    jsIncludes (hintLine singGeoSt) (buildGeoQuestion 0 constZero singapore).answer
      = false :=
  ⟨(hintLine_spec singCapSt singapore 0 constZero (by decide)).2.1 rfl,
    (hintLine_spec singGeoSt singapore 0 constZero (by decide)).2.2 rfl rfl⟩

theorem handleAdvance_attempts (t : Nat) (r : Nat → Nat) (st : GameState) :
    (handleAdvance t r st).attempts = st.attempts := by
  unfold handleAdvance
  split <;> rfl

theorem handleAdvance_correctCount (t : Nat) (r : Nat → Nat) (st : GameState) :
    (handleAdvance t r st).correctCount = st.correctCount := by
  unfold handleAdvance
  split <;> rfl

/-- C8: `correctCount ≤ attempts` holds in the initial session and is
preserved by every operation — text submission, geography choice, advance
and restart; a correct submission bumps `attempts` alongside
`correctCount`. -/
theorem counters_invariant (ds : List CountryDetail) (rand : Nat → Nat)
    (t : Nat) (r : Nat → Nat) (choice : List Char) (st : GameState)
    (h : st.correctCount ≤ st.attempts) :
    (initState ds rand t r).correctCount ≤ (initState ds rand t r).attempts ∧
    (handleSubmit st).correctCount ≤ (handleSubmit st).attempts ∧
    (handleGeoChoice t r choice st).correctCount ≤
      (handleGeoChoice t r choice st).attempts ∧
    (handleAdvance t r st).correctCount ≤ (handleAdvance t r st).attempts ∧
    (restart ds rand t r st).correctCount ≤ (restart ds rand t r st).attempts := by
  refine ⟨by simp [initState], ?_, ?_, ?_, by simp [restart, initState]⟩
  · unfold handleSubmit
    cases hcc : currentCountry st with
    | none => simpa using h
    | some c =>
      simp only
      by_cases hcl : normalizeAnswer st.answer = []
      · rw [if_pos hcl]
        simpa using h
      · rw [if_neg hcl]
        cases hst : st.step <;> simp only
        · split <;> simp [handleCorrect] <;> omega
        · split <;> simp [handleCorrect] <;> omega
        · show st.correctCount ≤ st.attempts + 1
          omega
  · unfold handleGeoChoice
    cases hgq : st.geoQuestion with
    | none => simpa using h
    | some q =>
      simp only
      by_cases hg : normalizeAnswer choice = normalizeAnswer q.answer
      · rw [if_pos hg]
        rw [handleAdvance_attempts, handleAdvance_correctCount]
        simp only [handleCorrect]
        show st.correctCount + 1 ≤ st.attempts + 1
        omega
      · rw [if_neg hg]
        show st.correctCount ≤ st.attempts + 1
        omega
  · rw [handleAdvance_attempts, handleAdvance_correctCount]
    exact h

/-- Witness for `counters_invariant`: the France session (1 correct out of
3 attempts). -/
theorem counters_invariant_witness :
    (initState [franceDetail] constZero 0 constZero).correctCount ≤
      (initState [franceDetail] constZero 0 constZero).attempts ∧
    (handleSubmit franceSt).correctCount ≤ (handleSubmit franceSt).attempts ∧
    (handleGeoChoice 0 constZero [] franceSt).correctCount ≤
      (handleGeoChoice 0 constZero [] franceSt).attempts ∧
    (handleAdvance 0 constZero franceSt).correctCount ≤
      (handleAdvance 0 constZero franceSt).attempts ∧
    (restart [franceDetail] constZero 0 constZero franceSt).correctCount ≤
      (restart [franceDetail] constZero 0 constZero franceSt).attempts :=
  counters_invariant [franceDetail] constZero 0 constZero [] franceSt (by decide)

/-- C10: a raw entry with an ISO numeric code is never dropped, and its
record's drive side is `left` exactly when the raw `drive_direction` field
is the string `"left"`; in particular a missing field is coerced to
`right`. -/
theorem driveDirection_coercion (ds : List CountryDetail) (e : CountryDetail)
    (he : e ∈ ds) (hiso : hasIso e = true) :
    mkCountry e ∈ buildCountries ds ∧
    ((mkCountry e).driveDirection = Drive.left ↔
      e.drive_direction = some (("left").data)) ∧
    (e.drive_direction = none → (mkCountry e).driveDirection = Drive.right) := by
  refine ⟨List.mem_filterMap.mpr ⟨e, he, by simp [hiso]⟩, ?_, ?_⟩
  · by_cases hd : e.drive_direction = some (("left").data) <;>
      simp [mkCountry, hd]
  · intro hn
    simp [mkCountry, hn]

/-- Witness for `driveDirection_coercion`: the entry with drive side
`"right"` in a two-entry dataset. -/
theorem driveDirection_coercion_witness :
    mkCountry dupEntryA ∈ buildCountries [dupEntryA, noIsoEntry] ∧
    ((mkCountry dupEntryA).driveDirection = Drive.left ↔
      dupEntryA.drive_direction = some (("left").data)) ∧
    (dupEntryA.drive_direction = none →
      (mkCountry dupEntryA).driveDirection = Drive.right) :=
  driveDirection_coercion [dupEntryA, noIsoEntry] dupEntryA (by simp)
    (by decide)
